import Mathlib

/-!
Verification development for the snapchat-memories-downloader pipeline
(`main.py`, `src/core.py`, `src/utils.py`).

The Python code is shallowly embedded as executable Lean definitions:
pure helpers become Lean functions on `String`/`List Char`; the stateful
stage loops become explicit folds that thread the loop counters and
return, for every record, an observable trace (outcome, network calls,
sleeps).  External effects (the HTTP transport, the zip library, the
filesystem, exiftool) are modelled as explicit oracle parameters: the
code's control flow around those calls is translated faithfully from the
source.
-/

namespace SnapMem

/-- The double-quote character, written via its code point. -/
def dq : Char := Char.ofNat 34

/-- The single-quote character, written via its code point. -/
def sq : Char := Char.ofNat 39

/-- If `pat` is a prefix of `s`, return the remainder of `s`, else `none`.
Used to model matching a literal piece of a regular expression. -/
def dropPrefixChars : List Char → List Char → Option (List Char)
  | [], rest => some rest
  | _ :: _, [] => none
  | p :: ps, c :: cs => if c = p then dropPrefixChars ps cs else none

/-- Substring test on character lists, modelling Python's `in` operator
on strings. -/
def containsSub (pat : List Char) : List Char → Bool
  | [] => pat.isEmpty
  | c :: cs => (dropPrefixChars pat (c :: cs)).isSome || containsSub pat cs

/-- Models Python `needle in hay` for strings. -/
def containsSubstr (hay pat : String) : Bool :=
  containsSub pat.toList hay.toList

/-- Split a character list at the last `/`, returning the directory part
(with the separator) and the base name.  Models the separator handling of
`posixpath`. -/
def lastSlashSplit (cs : List Char) : List Char × List Char :=
  cs.foldl (fun acc c => if c = '/' then (acc.1 ++ acc.2 ++ ['/'], []) else (acc.1, acc.2 ++ [c])) ([], [])

/-- `os.path.basename`: everything after the last `/`. -/
def basename (p : String) : String :=
  String.mk (lastSlashSplit p.toList).2

/-- Index of the last occurrence of `c` in `cs`, if any. -/
def lastIdxOf (c : Char) (cs : List Char) : Option Nat :=
  ((cs.enum.filter (fun p => p.2 = c)).map (fun p => p.1)).getLast?

/-- `os.path.splitext` restricted to a base name with no separator: split
at the last dot, unless every character before that dot is itself a dot
(so names like `.bashrc` have no extension). -/
def splitBaseExt (base : List Char) : List Char × List Char :=
  match lastIdxOf '.' base with
  | none => (base, [])
  | some d =>
    if (base.take d).all (fun c => c = '.') then (base, [])
    else (base.take d, base.drop d)

/-- `os.path.splitext` on a posix path: the dot must come after the last
separator, and leading dots of the base name never start an extension. -/
def splitext (p : String) : String × String :=
  let dirBase := lastSlashSplit p.toList
  let rootExt := splitBaseExt dirBase.2
  (String.mk (dirBase.1 ++ rootExt.1), String.mk rootExt.2)

/-- Models Python `str.lower` (ASCII letters, which is all the code ever
feeds it: file extensions). -/
def strLower (s : String) : String :=
  String.mk (s.toList.map Char.toLower)

/-- Prefix test on strings, modelling Python `str.startswith`. -/
def startsWithStr (s pat : String) : Bool :=
  (dropPrefixChars pat.toList s.toList).isSome

/-- `utils.is_system_file`: names starting with `__MACOSX` or `.`. -/
def is_system_file (file_name : String) : Bool :=
  startsWithStr file_name "__MACOSX" || startsWithStr file_name "."

/-- The literal `filename=` of the `Content-Disposition` regex in
`utils.get_extension`. -/
def filenameKey : List Char := "filename=".toList

/-- The capture of `"?([^"]+)"?` immediately after `filename=`: an
optional opening double quote, then a maximal nonempty run of non-quote
characters (the optional closing quote does not affect the capture). -/
def captureAfterEq (rest : List Char) : Option (List Char) :=
  let rest2 := match rest with
    | c :: t => if c = dq then t else c :: t
    | [] => []
  let cap := rest2.takeWhile (fun c => c ≠ dq)
  if cap.isEmpty then none else some cap

/-- `re.search` for the pattern `filename="?([^"]+)"?`: try every start
position from the left; at each occurrence of the literal `filename=`
attempt the capture, otherwise keep scanning. -/
def findFilenameChars : List Char → Option (List Char)
  | [] => none
  | c :: cs =>
    match dropPrefixChars filenameKey (c :: cs) with
    | some rest =>
      match captureAfterEq rest with
      | some cap => some cap
      | none => findFilenameChars cs
    | none => findFilenameChars cs

/-- String-level wrapper for the `Content-Disposition` filename search. -/
def findFilename (s : String) : Option String :=
  (findFilenameChars s.toList).map String.mk

/-- The part of an HTTP response observed by `utils.get_extension`: the
optional `Content-Disposition` header (`None` or a string; an empty
string is falsy in Python, like a missing header). -/
structure Response where
  contentDisposition : Option String
deriving Repr, DecidableEq

/-- `utils.get_extension`: extension sniffing exclusively from the
`Content-Disposition` header.  Missing/empty header or no regex match
gives `""`; a matched filename yields its `splitext` extension lowercased,
or `".dat"` when that extension is empty. -/
def get_extension (response : Response) : String :=
  match response.contentDisposition with
  | none => ""
  | some cd =>
    if cd = "" then ""
    else
      match findFilename cd with
      | none => ""
      | some name =>
        let ext := (splitext name).2
        if ext = "" then ".dat" else strLower ext

/-- An HTTP request as assembled by `core._fetch_response` before it is
handed to the transport: method, url, body and headers. -/
structure HttpRequest where
  method : String
  url : String
  body : String
  headers : List (String × String)
deriving Repr, DecidableEq

/-- Python `s.split(c, 1)`: the part before the first occurrence of `c`,
and the remainder after it when `c` occurs. -/
def splitOnceChars (c : Char) : List Char → List Char × Option (List Char)
  | [] => ([], none)
  | x :: xs =>
    if x = c then ([], some xs)
    else
      let r := splitOnceChars c xs
      (x :: r.1, r.2)

/-- String-level wrapper for `split(c, 1)`. -/
def split_once (c : Char) (s : String) : String × Option String :=
  let r := splitOnceChars c s.toList
  (String.mk r.1, r.2.map String.mk)

/-- Headers of the GET branch of `core._fetch_response`. -/
def getHeaders : List (String × String) :=
  [("X-Snap-Route-Tag", "mem-dmd"), ("User-Agent", "Mozilla/5.0")]

/-- Headers of the POST branch of `core._fetch_response`. -/
def postHeaders : List (String × String) :=
  [("Content-type", "application/x-www-form-urlencoded"), ("User-Agent", "Mozilla/5.0")]

/-- The request assembled by `core._fetch_response`: a GET to the whole
link, or a form-encoded POST to the part before the first `?` with the
remainder of the link as the body. -/
def fetch_request (downloadLink : String) (isGetRequest : Bool) : HttpRequest :=
  if isGetRequest then
    { method := "GET", url := downloadLink, body := "", headers := getHeaders }
  else
    let parts := split_once '?' downloadLink
    { method := "POST", url := parts.1, body := (parts.2).getD "", headers := postHeaders }

/-- The error raised by `utils.retry` once every attempt has failed; the
spec names this error kind `FetchError`.  It records the exhausted
attempt budget, as the raised message does. -/
inductive FetchError where
  | exhausted (maxRetries : Nat)
deriving Repr, DecidableEq

/-- Observable result of a `utils.retry`-wrapped call: the final outcome,
the number of invocations of the wrapped function, and the sequence of
sleeps performed between attempts. -/
structure RetryResult (α : Type) where
  outcome : Except FetchError α
  calls : Nat
  sleeps : List Nat
deriving Repr

/-- The `while attempts < max_retries` loop of `utils.retry`: each failed
attempt logs, sleeps `delay`, and retries identically whatever the
exception was; once the budget is exhausted the generic exhaustion error
is raised.  `f n` is the outcome of attempt number `n`. -/
def retryLoop (maxRetries delay : Nat) (f : Nat → Except String α) :
    Nat → Nat → RetryResult α
  | 0, calls => { outcome := Except.error (FetchError.exhausted maxRetries), calls := calls, sleeps := [] }
  | fuel + 1, calls =>
    match f calls with
    | Except.ok a => { outcome := Except.ok a, calls := calls + 1, sleeps := [] }
    | Except.error _ =>
      let r := retryLoop maxRetries delay f fuel (calls + 1)
      { outcome := r.outcome, calls := r.calls, sleeps := delay :: r.sleeps }

/-- `utils.retry (max_retries, delay)` applied to a fallible call. -/
def retry_call (maxRetries delay : Nat) (f : Nat → Except String α) : RetryResult α :=
  retryLoop maxRetries delay f maxRetries 0

/-- One manifest row as materialized by `core._construct_dataframe`, with
the columns later stages read and mutate (`file_path` and `is_zip` start
as the defaults `_download_memories` initializes them to). -/
structure Record where
  timestampStr : String
  mediaType : String
  timestamp : Int
  fileName : String
  isExtracted : Bool := false
  lat : Float := 0.0
  lon : Float := 0.0
  downloadLink : Option String := none
  isGetRequest : Option Bool := none
  filePath : Option String := none
  isZip : Bool := false
deriving Repr

/-- How one iteration of the `_download_memories` loop ended for its
record: skipped via the resume index, skipped for a missing link (a
logged warning), downloaded, or failed after retries (a logged error). -/
inductive RowOutcome where
  | resumed (filePath : String)
  | missingLink
  | downloaded (filePath : String)
  | fetchFailed (e : FetchError)
deriving Repr, DecidableEq

/-- Whether the iteration actually attempted a fetch (reached the
`try` block of `_download_memories`). -/
def RowOutcome.attempted : RowOutcome → Bool
  | RowOutcome.downloaded _ => true
  | RowOutcome.fetchFailed _ => true
  | _ => false

/-- Trace of one iteration of the `_download_memories` loop: its outcome,
the number of network requests issued for the record, the sleeps done by
the retry wrapper, whether the trailing `time.sleep(DOWNLOAD_DELAYS_SEC)`
of the iteration ran, and the value of `completed_downloads` after the
iteration. -/
structure RowTrace where
  outcome : RowOutcome
  fetchCalls : Nat
  retrySleeps : List Nat
  interSleep : Bool
  completedAfter : Nat
deriving Repr, DecidableEq

/-- Insert into an association list with Python `dict` overwrite
semantics: an existing key is updated in place, a new key is appended. -/
def dict_insert (m : List (String × String)) (k v : String) : List (String × String) :=
  if m.any (fun p => p.1 == k) then
    m.map (fun p => if p.1 == k then (k, v) else p)
  else m ++ [(k, v)]

/-- First value bound to `k`, modelling `dict` lookup (keys inserted by
`dict_insert` are unique). -/
def dict_find (m : List (String × String)) (k : String) : Option String :=
  (m.find? (fun p => p.1 == k)).map (fun p => p.2)

/-- `utils.get_already_downloaded_files`: fold the directory listing,
skip system names, and map each remaining name without its extension to
its joined path. -/
def get_already_downloaded_files (downloadDir : String) (listing : List String) :
    List (String × String) :=
  listing.foldl
    (fun m base =>
      if is_system_file base then m
      else dict_insert m (splitext base).1 (downloadDir ++ "/" ++ base))
    []

/-- One iteration of the `_download_memories` loop.  The transport is the
oracle `net`, giving the outcome of each attempt for this record (the
body write after a successful response is not a failure source in this
model).  Returns the updated record, its trace, and the updated
`completed_downloads` counter. -/
def download_step (maxRetries delay : Nat) (downloadDir : String)
    (index : List (String × String)) (total : Nat)
    (net : Nat → Except String Response) (completed : Nat) (r : Record) :
    Record × RowTrace × Nat :=
  match dict_find index r.fileName with
  | some filePath =>
    let base := basename filePath
    let ext := (splitext base).2
    ({ r with filePath := some filePath, isZip := ext == ".zip",
              isExtracted := containsSubstr r.fileName "extracted" },
     { outcome := RowOutcome.resumed filePath, fetchCalls := 0, retrySleeps := [],
       interSleep := false, completedAfter := completed }, completed)
  | none =>
    if r.downloadLink.getD "" = "" then
      (r, { outcome := RowOutcome.missingLink, fetchCalls := 0, retrySleeps := [],
            interSleep := false, completedAfter := completed }, completed)
    else
      let res := retry_call maxRetries delay net
      match res.outcome with
      | Except.ok response =>
        let ext := get_extension response
        let filePath := downloadDir ++ "/" ++ r.fileName ++ ext
        ({ r with filePath := some filePath, isZip := ext == ".zip" },
         { outcome := RowOutcome.downloaded filePath, fetchCalls := res.calls,
           retrySleeps := res.sleeps, interSleep := decide (completed + 1 < total),
           completedAfter := completed + 1 }, completed + 1)
      | Except.error e =>
        (r, { outcome := RowOutcome.fetchFailed e, fetchCalls := res.calls,
              retrySleeps := res.sleeps, interSleep := decide (completed < total),
              completedAfter := completed }, completed)

/-- The `for i, row in df.iterrows()` loop of `_download_memories`,
threading the row index `i` and `completed_downloads`; also returns the
final counter. -/
def download_go (maxRetries delay : Nat) (downloadDir : String)
    (index : List (String × String)) (total : Nat)
    (net : Nat → Nat → Except String Response) :
    Nat → Nat → List Record → List (Record × RowTrace) × Nat
  | _, completed, [] => ([], completed)
  | i, completed, r :: rest =>
    let step := download_step maxRetries delay downloadDir index total (net i) completed r
    let tail := download_go maxRetries delay downloadDir index total net (i + 1) step.2.2 rest
    ((step.1, step.2.1) :: tail.1, tail.2)

/-- `core._download_memories` over a record list: per-record updated
records and traces. -/
def download_memories (maxRetries delay : Nat) (downloadDir : String)
    (index : List (String × String)) (net : Nat → Nat → Except String Response)
    (records : List Record) : List (Record × RowTrace) :=
  (download_go maxRetries delay downloadDir index records.length net 0 0 records).1

/-- The literal opening of the `downloadMemories` onclick pattern in
`core._construct_dataframe`, up to and including the single quote. -/
def dmHead : List Char := "downloadMemories(".toList ++ [sq]

/-- The closing of the pattern for the `true` flag: quote, separator,
flag and trailing characters. -/
def dmTailTrue : List Char := sq :: ", this, true);".toList

/-- The closing of the pattern for the `false` flag. -/
def dmTailFalse : List Char := sq :: ", this, false);".toList

/-- The lazy URL group of the onclick pattern: the shortest run of
characters followed by the literal closing with either flag. -/
def scanUrl : List Char → Option (List Char × Bool)
  | [] => none
  | c :: cs =>
    match dropPrefixChars dmTailTrue (c :: cs) with
    | some _ => some ([], true)
    | none =>
      match dropPrefixChars dmTailFalse (c :: cs) with
      | some _ => some ([], false)
      | none =>
        match scanUrl cs with
        | some r => some (c :: r.1, r.2)
        | none => none

/-- `re.search` of the onclick pattern of `core._construct_dataframe` on
a single-line attribute value: try each start position from the left,
matching the opening literal and then the lazy URL group. -/
def matchDownloadMemories : List Char → Option (List Char × Bool)
  | [] => none
  | c :: cs =>
    match dropPrefixChars dmHead (c :: cs) with
    | some rest =>
      match scanUrl rest with
      | some r => some r
      | none => matchDownloadMemories cs
    | none => matchDownloadMemories cs

/-- The per-row link extraction of `core._construct_dataframe`: a missing
onclick attribute, or one the pattern does not match, yields an absent
link and an absent method flag. -/
def extract_link (onclick : Option String) : Option String × Option Bool :=
  match onclick with
  | none => (none, none)
  | some s =>
    match matchDownloadMemories s.toList with
    | none => (none, none)
    | some r => (some (String.mk r.1), some r.2)

/-- What `zipfile` yields for an archive in `core._handle_zips`: either
the container is invalid (`BadZipFile`), or extraction succeeds and
`os.walk` enumerates the given per-directory batches of file names. -/
inductive ZipContents where
  | badZip
  | walk (batches : List (List String))
deriving Repr, DecidableEq

/-- How `_handle_zips` ended for one archive record. -/
inductive ZipResult where
  | ok (moved : Nat)
  | badZip
  | otherError
deriving Repr, DecidableEq

/-- Trace of `_handle_zips` for one archive record: the logged result,
whether `ZipFile(...).extractall` actually ran, the final base names the
entries were moved to, and whether the temporary extraction directory is
absent after the `finally` cleanup. -/
structure ZipTrace where
  result : ZipResult
  extractionPerformed : Bool
  movedFiles : List String
  tempDirRemoved : Bool
deriving Repr, DecidableEq

/-- The final name `{zip_file_name}_extracted_{ordinal}{extension}` given
to a surviving archive entry. -/
def extractedName (zipFileName : String) (ordinal : Nat) (entry : String) : String :=
  zipFileName ++ "_extracted_" ++ toString ordinal ++ (splitext entry).2

/-- The `for i, name in enumerate(files)` body of `_handle_zips` for one
directory batch: the index counts every listed entry, system entries are
skipped after being counted, and survivors get ordinal `i + 1`. -/
def batchEntriesFrom (zipFileName : String) : Nat → List String → List String
  | _, [] => []
  | i, f :: fs =>
    if is_system_file f then batchEntriesFrom zipFileName (i + 1) fs
    else extractedName zipFileName (i + 1) f :: batchEntriesFrom zipFileName (i + 1) fs

/-- Final names produced from one directory batch (enumeration restarts
at zero for each batch). -/
def batchEntries (zipFileName : String) (files : List String) : List String :=
  batchEntriesFrom zipFileName 0 files

/-- Final names produced over the whole `os.walk`, in walk order. -/
def walkEntries (zipFileName : String) (batches : List (List String)) : List String :=
  (batches.map (batchEntries zipFileName)).flatten

/-- The body of the `_handle_zips` loop for one archive record: open and
extract the archive, move the surviving entries under their derived
names, synthesize one new record per moved entry, and always leave the
temporary directory removed (the `finally` block). -/
def handle_zip_row (downloadDir : String) (contents : String → ZipContents) (row : Record) :
    ZipTrace × List Record :=
  match row.filePath with
  | none =>
    ({ result := ZipResult.otherError, extractionPerformed := false,
       movedFiles := [], tempDirRemoved := true }, [])
  | some zipFilePath =>
    match contents zipFilePath with
    | ZipContents.badZip =>
      ({ result := ZipResult.badZip, extractionPerformed := false,
         movedFiles := [], tempDirRemoved := true }, [])
    | ZipContents.walk batches =>
      let finals := walkEntries row.fileName batches
      ({ result := ZipResult.ok finals.length, extractionPerformed := true,
         movedFiles := finals, tempDirRemoved := true },
       finals.map (fun fb =>
         { row with fileName := (splitext fb).1,
                    filePath := some (downloadDir ++ "/" ++ fb),
                    isZip := false, isExtracted := true }))

/-- `core._handle_zips`: process every record with `is_zip = True`, then
append all synthesized records to the working set. -/
def handle_zips (downloadDir : String) (contents : String → ZipContents) (rows : List Record) :
    List ZipTrace × List Record :=
  let results := (rows.filter (fun r => r.isZip)).map (handle_zip_row downloadDir contents)
  (results.map (fun p => p.1), rows ++ (results.map (fun p => p.2)).flatten)

/-- Outcome of the exiftool invocation inside
`core._update_media_metadata_pyexiftool` (all three cases are caught and
logged there). -/
inductive ExifResult where
  | ok
  | toolNotFound
  | writeFailed
deriving Repr, DecidableEq

/-- Observable outcome of `core._update_media_metadata_pyexiftool` for
one file: early return because the file is missing, early return because
`strptime` failed, or completion with the exiftool outcome and whether
`os.utime` succeeded (the utime step runs regardless of the exiftool
outcome).  Every branch is internal to the function; it never raises. -/
inductive MetaOutcome where
  | fileNotFound
  | badTimestamp
  | done (exifResult : ExifResult) (utimeOk : Bool)
deriving Repr, DecidableEq

/-- Environment oracles for the metadata stage: filesystem existence,
whether `strptime` parses the timestamp text with the fixed format, the
exiftool outcome per file, and the `os.utime` outcome per file.  The tag
values written are side effects not observed by any claim and are not
modelled. -/
structure MetaEnv where
  fileExists : String → Bool
  parseOk : String → Bool
  exif : String → ExifResult
  utimeOk : String → Bool

/-- `core._update_media_metadata_pyexiftool`, called with a string file
path: checks existence, parses the timestamp, then applies tags and
filesystem times, logging every failure internally. -/
def update_media_metadata (env : MetaEnv) (filePath timestampStr : String)
    (_lat _lon : Float) : MetaOutcome :=
  if !env.fileExists filePath then MetaOutcome.fileNotFound
  else if !env.parseOk timestampStr then MetaOutcome.badTimestamp
  else MetaOutcome.done (env.exif filePath) (env.utimeOk filePath)

/-- The message of the `TypeError` Python raises for
`os.path.basename(None)`. -/
def typeErrorMessage : String :=
  "TypeError: expected str, bytes or os.PathLike object, not NoneType"

/-- The `for i, row in non_zip_df.iterrows()` loop of
`core._update_memories_metadata`: each iteration first computes
`os.path.basename(row[file_path])` — which raises an uncaught
`TypeError` when `file_path` is `None`, aborting the whole loop — and
otherwise runs the per-file update.  Returns the records processed
before any abort, and the escaped exception if one occurred. -/
def metaGo (env : MetaEnv) : List Record → List (String × MetaOutcome) × Option String
  | [] => ([], none)
  | r :: rest =>
    match r.filePath with
    | none => ([], some typeErrorMessage)
    | some filePath =>
      let out := update_media_metadata env filePath r.timestampStr r.lat r.lon
      let res := metaGo env rest
      ((basename filePath, out) :: res.1, res.2)

/-- `core._update_memories_metadata`: filter to records with
`is_zip == False` and run the per-record loop over them. -/
def update_memories_metadata (env : MetaEnv) (records : List Record) :
    List (String × MetaOutcome) × Option String :=
  metaGo env (records.filter (fun r => !r.isZip))

/-- A concrete manifest record used by the concrete-input theorems. -/
def sampleRecord (fn : String) : Record :=
  { timestampStr := "2025-01-01 00:00:00 UTC", mediaType := "image",
    timestamp := 1735689600000, fileName := fn }

/-- Concrete record with a download link, for the delay counterexample. -/
def recA : Record :=
  { sampleRecord "1_image" with downloadLink := some "u0", isGetRequest := some true }

/-- Second concrete record with a download link. -/
def recB : Record :=
  { sampleRecord "2_image" with downloadLink := some "u1", isGetRequest := some true }

/-- A transport where every attempt for record 0 fails and record 1
succeeds with a plain media response. -/
def netAB : Nat → Nat → Except String Response :=
  fun i _ =>
    if i = 0 then Except.error "connection reset"
    else Except.ok ⟨some "attachment; filename=a.jpg"⟩

/-- Output directory listing after a completed earlier run over one
archive record: the persisted archive and its two expanded members. -/
def zipListing : List String :=
  ["100_image.zip", "100_image_extracted_1.jpg", "100_image_extracted_2.jpg"]

/-- Resume index computed from that listing. -/
def zipIndex : List (String × String) :=
  get_already_downloaded_files "d" zipListing

/-- The re-run transport; it is never consulted in the resume scenario. -/
def zipNet : Nat → Nat → Except String Response :=
  fun _ _ => Except.error "unused"

/-- The manifest record of the archive, as parsed on the re-run. -/
def zipRecord : Record := sampleRecord "100_image"

/-- Contents of the persisted archive: two plain entries at its root. -/
def zipContentsFn : String → ZipContents :=
  fun zp =>
    if zp = "d/100_image.zip" then ZipContents.walk [["a.jpg", "b.jpg"]]
    else ZipContents.badZip

/-- An archive record whose zip lists a system entry before two media
entries, for the ordinal counterexample. -/
def rowZ : Record := { sampleRecord "Z" with filePath := some "d/Z.zip", isZip := true }

/-- The corresponding archive contents: one directory batch in which a
system entry precedes the two media entries. -/
def contentsZ : String → ZipContents :=
  fun _ => ZipContents.walk [[".DS_Store", "a.jpg", "b.jpg"]]

/-- The archive record after the re-run's fetch stage resumed it from
the listing: path of the persisted zip, `is_zip` re-derived as true. -/
def zipRowResumed : Record :=
  { sampleRecord "100_image" with filePath := some "d/100_image.zip", isZip := true }

/-- Archive contents with two plain entries in a single directory batch,
for the amended-C5 witness. -/
def contentsAB : String → ZipContents :=
  fun _ => ZipContents.walk [["a.jpg", "b.jpg"]]

/-- A transport where every attempt succeeds with a plain media
response. -/
def netOkJpg : Nat → Nat → Except String Response :=
  fun _ _ => Except.ok ⟨some "attachment; filename=a.jpg"⟩

/-- Listing of an output directory that already holds the expected final
file of the single sample record. -/
def jpgListing : List String := ["100_image.jpg"]

/-- The trace produced for `recB` when its single download succeeds as
the only record of a run. -/
def traceB : RowTrace :=
  { outcome := RowOutcome.downloaded "d/2_image.jpg", fetchCalls := 1,
    retrySleeps := [], interSleep := false, completedAfter := 1 }

/-- A metadata environment in which every external operation succeeds. -/
def envAllOk : MetaEnv :=
  { fileExists := fun _ => true, parseOk := fun _ => true,
    exif := fun _ => ExifResult.ok, utimeOk := fun _ => true }

/-- A non-archive record that was successfully persisted. -/
def goodRec1 : Record := { sampleRecord "1_image" with filePath := some "d/x.jpg" }

/-- A non-archive record left without a `file_path` (missing link or
failed fetch). -/
def badRec : Record := sampleRecord "2_image"

/-- A second successfully persisted non-archive record, placed after the
record without a `file_path`. -/
def goodRec2 : Record := { sampleRecord "3_image" with filePath := some "d/y.jpg" }


/-- Claim C7: `get_extension` determines the extension exclusively from
the `Content-Disposition` filename parameter: with the header absent, or
with no parseable filename, it returns `""`; with a parsed filename whose
`splitext` extension is empty it returns `".dat"`. -/
theorem c7_get_extension_contract (response : Response) :
    (response.contentDisposition = none → get_extension response = "") ∧
    (∀ cd, response.contentDisposition = some cd → findFilename cd = none →
      get_extension response = "") ∧
    (∀ cd name, response.contentDisposition = some cd → findFilename cd = some name →
      (splitext name).2 = "" → get_extension response = ".dat") := by
  refine ⟨?_, ?_, ?_⟩
  · intro h
    simp [get_extension, h]
  · intro cd hcd hf
    by_cases hempty : cd = ""
    · simp [get_extension, hcd, hempty]
    · simp [get_extension, hcd, hempty, hf]
  · intro cd name hcd hf hext
    by_cases hempty : cd = ""
    · exfalso
      rw [hempty] at hf
      simp [findFilename, findFilenameChars] at hf
    · simp [get_extension, hcd, hempty, hf, hext]

/-- Witness for C7 at concrete responses: absent header, header without a
filename, and a filename with no extension. -/
theorem c7_get_extension_contract_witness :
    get_extension ⟨none⟩ = "" ∧
    get_extension ⟨some "attachment"⟩ = "" ∧
    get_extension ⟨some "attachment; filename=x"⟩ = ".dat" := by
  refine ⟨?_, ?_, ?_⟩
  · exact (c7_get_extension_contract ⟨none⟩).1 rfl
  · exact (c7_get_extension_contract ⟨some "attachment"⟩).2.1 "attachment" rfl (by decide)
  · exact (c7_get_extension_contract ⟨some "attachment; filename=x"⟩).2.2 "attachment; filename=x" "x" rfl (by decide) (by decide)

/-- Claim C9: when the `Content-Disposition` filename parses and carries
an extension, `get_extension` returns that extension lowercased, so the
downstream archive test (`extension == ".zip"` in `_download_memories`)
is insensitive to the case of the server-supplied filename. -/
theorem c9_extension_lowercased (cd name : String)
    (hf : findFilename cd = some name) (hext : ¬ (splitext name).2 = "") :
    get_extension ⟨some cd⟩ = strLower (splitext name).2 ∧
    ((get_extension ⟨some cd⟩ == ".zip") = (strLower (splitext name).2 == ".zip")) := by
  have hempty : ¬ cd = "" := by
    intro h
    rw [h] at hf
    simp [findFilename, findFilenameChars] at hf
  have hmain : get_extension ⟨some cd⟩ = strLower (splitext name).2 := by
    simp [get_extension, hempty, hf, hext]
  exact ⟨hmain, by rw [hmain]⟩

/-- Witness for C9: an uppercase `.ZIP` filename sniffs to `".zip"` and
classifies as an archive. -/
theorem c9_extension_lowercased_witness :
    get_extension ⟨some "attachment; filename=a.ZIP"⟩ = strLower (splitext "a.ZIP").2 ∧
    ((get_extension ⟨some "attachment; filename=a.ZIP"⟩ == ".zip") = (strLower (splitext "a.ZIP").2 == ".zip")) :=
  c9_extension_lowercased "attachment; filename=a.ZIP" "a.ZIP" (by decide) (by decide)

/-- `String.mk` after `String.toList` is the identity. -/
theorem mkToListEq (s : String) : String.mk s.toList = s := rfl

/-- `String.toList` after `String.mk` is the identity. -/
theorem toListMkEq (l : List Char) : (String.mk l).toList = l := rfl

/-- String append agrees with list append of the underlying characters. -/
theorem mkAppendEq (a b : List Char) : String.mk a ++ String.mk b = String.mk (a ++ b) := rfl

/-- When `c` does not occur, `split(c, 1)` returns the whole input and no
remainder. -/
theorem splitOnceChars_none (c : Char) :
    ∀ cs : List Char, (∀ x ∈ cs, x ≠ c) → splitOnceChars c cs = (cs, none) := by
  intro cs
  induction cs with
  | nil => intro _; rfl
  | cons x xs ih =>
    intro h
    have hx : ¬ x = c := h x (List.mem_cons_self x xs)
    simp [splitOnceChars, hx, ih (fun y hy => h y (List.mem_cons_of_mem x hy))]

/-- `split(c, 1)` is a total decomposition: the two parts always
reassemble to the input. -/
theorem splitOnceChars_recon (c : Char) :
    ∀ cs : List Char,
      (splitOnceChars c cs).1 ++
        (match (splitOnceChars c cs).2 with
         | none => []
         | some rest => c :: rest) = cs := by
  intro cs
  induction cs with
  | nil => rfl
  | cons x xs ih =>
    by_cases hx : x = c
    · subst hx
      simp [splitOnceChars]
    · have hstep : splitOnceChars c (x :: xs) =
          (x :: (splitOnceChars c xs).1, (splitOnceChars c xs).2) := by
        simp [splitOnceChars, hx]
      rw [hstep, List.cons_append, ih]

/-- Claim C10: for a POST-method record whose fetch target contains no
`?`, `_fetch_response` issues the form-encoded POST to the entire target
with an empty body; and the base/query split is total — it always
decomposes the target and never fails. -/
theorem c10_post_without_query (link : String) (h : ∀ ch ∈ link.toList, ch ≠ '?') :
    fetch_request link false =
      { method := "POST", url := link, body := "", headers := postHeaders } ∧
    ∀ cs : List Char,
      (splitOnceChars '?' cs).1 ++
        (match (splitOnceChars '?' cs).2 with
         | none => []
         | some rest => '?' :: rest) = cs := by
  constructor
  · have hs : splitOnceChars '?' link.toList = (link.toList, none) :=
      splitOnceChars_none '?' link.toList h
    calc fetch_request link false
        = { method := "POST", url := String.mk (splitOnceChars '?' link.toList).1,
            body := (((splitOnceChars '?' link.toList).2).map String.mk).getD "",
            headers := postHeaders } := rfl
      _ = { method := "POST", url := link, body := "", headers := postHeaders } := by
          rw [hs]
          exact rfl
  · exact splitOnceChars_recon '?'

/-- Witness for C10 at a concrete query-free POST target and a concrete
split input. -/
theorem c10_post_without_query_witness :
    fetch_request "https://m.example.com/path" false =
      { method := "POST", url := "https://m.example.com/path", body := "", headers := postHeaders } ∧
    (splitOnceChars '?' "base?sid=1".toList).1 ++
      (match (splitOnceChars '?' "base?sid=1".toList).2 with
       | none => []
       | some rest => '?' :: rest) = "base?sid=1".toList :=
  ⟨(c10_post_without_query "https://m.example.com/path" (by decide)).1,
   (c10_post_without_query "https://m.example.com/path" (by decide)).2 "base?sid=1".toList⟩

/-- Claim C8: a manifest row whose onclick attribute is absent or does
not match the `downloadMemories` pattern yields a record with an empty
fetch target and a null method flag, and `_download_memories` skips such
a record as a warning (outcome `missingLink`, zero fetch calls, record
unchanged) rather than treating it as an error. -/
theorem c8_missing_link_skipped (onclick : Option String) :
    (onclick = none → extract_link onclick = (none, none)) ∧
    (∀ s, onclick = some s → matchDownloadMemories s.toList = none →
      extract_link onclick = (none, none)) ∧
    (∀ (maxRetries delay : Nat) (downloadDir : String) (index : List (String × String))
       (total : Nat) (net : Nat → Except String Response) (completed : Nat) (r : Record),
      dict_find index r.fileName = none → r.downloadLink = none →
      download_step maxRetries delay downloadDir index total net completed r =
        (r, { outcome := RowOutcome.missingLink, fetchCalls := 0, retrySleeps := [],
              interSleep := false, completedAfter := completed }, completed)) := by
  refine ⟨?_, ?_, ?_⟩
  · intro h
    rw [h]
    rfl
  · intro s hs hm
    rw [hs]
    have hm2 : matchDownloadMemories s.data = none := hm
    simp [extract_link, hm2]
  · intro maxRetries delay downloadDir index total net completed r hidx hlink
    simp [download_step, hidx, hlink, Option.getD]

/-- Witness for C8: a non-matching onclick attribute, and the fetch
stage's handling of the resulting record. -/
theorem c8_missing_link_skipped_witness :
    extract_link (some "window.open()") = (none, none) ∧
    download_step 3 1 "d" [] 1 (fun _ => Except.error "e") 0 badRec =
      (badRec, { outcome := RowOutcome.missingLink, fetchCalls := 0, retrySleeps := [],
                 interSleep := false, completedAfter := 0 }, 0) :=
  ⟨(c8_missing_link_skipped (some "window.open()")).2.1 "window.open()" rfl (by decide),
   (c8_missing_link_skipped (some "window.open()")).2.2 3 1 "d" [] 1
     (fun _ => Except.error "e") 0 badRec (by decide) rfl⟩

/-- Claim C1 (code bug): the metadata stage of
`core._update_memories_metadata` iterates every record with
`is_zip == False` whether or not it has a `file_path`; the first such
record without one raises an uncaught `TypeError` at
`os.path.basename(None)`, aborting the whole stage, so later eligible
records are never attempted.  With every record carrying a `file_path`
the stage completes with no escaping exception. -/
theorem c1_metadata_stage_crashes :
    update_memories_metadata envAllOk [goodRec1, badRec, goodRec2] =
      ([("x.jpg", MetaOutcome.done ExifResult.ok true)], some typeErrorMessage) ∧
    badRec.isZip = false ∧
    badRec.filePath = none ∧
    update_memories_metadata envAllOk [goodRec1, goodRec2] =
      ([("x.jpg", MetaOutcome.done ExifResult.ok true),
        ("y.jpg", MetaOutcome.done ExifResult.ok true)], none) := by
  refine ⟨by decide, rfl, rfl, by decide⟩

/-- Counterexample to C5 as stated: an archive containing exactly two
non-system entries, preceded in the same directory listing by a system
entry, yields two expanded records whose final names carry the suffixes
`_extracted_2` and `_extracted_3` — not the claimed contiguous
`_extracted_1`/`_extracted_2`. -/
theorem c5_counterexample :
    (([".DS_Store", "a.jpg", "b.jpg"].filter (fun f => !is_system_file f)).length = 2) ∧
    (handle_zip_row "d" contentsZ rowZ).2.map (fun r => (r.isExtracted, r.isZip)) =
      [(true, false), (true, false)] ∧
    (handle_zip_row "d" contentsZ rowZ).1.movedFiles =
      ["Z_extracted_2.jpg", "Z_extracted_3.jpg"] ∧
    ¬ (handle_zip_row "d" contentsZ rowZ).1.movedFiles =
      ["Z_extracted_1.jpg", "Z_extracted_2.jpg"] := by
  refine ⟨by decide, by decide, by decide, by decide⟩

/-- Claim C5 as amended: an archive whose extraction yields a single
directory batch of exactly two entries, both non-system, produces
exactly two new records with `is_expanded_member = true` and final names
with contiguous suffixes `_extracted_1`/`_extracted_2`; in general the
ordinal is the 1-based position in the directory's full listing (system
entries included) and restarts per directory.  The temporary extraction
directory is absent afterwards on every outcome. -/
theorem c5_flat_two_entry_archive (downloadDir : String) (contents : String → ZipContents)
    (row : Record) (zp a b : String) (hfp : row.filePath = some zp)
    (hc : contents zp = ZipContents.walk [[a, b]])
    (ha : is_system_file a = false) (hb : is_system_file b = false) :
    (handle_zip_row downloadDir contents row).2.length = 2 ∧
    (∀ r ∈ (handle_zip_row downloadDir contents row).2, r.isExtracted = true ∧ r.isZip = false) ∧
    (handle_zip_row downloadDir contents row).1.movedFiles =
      [extractedName row.fileName 1 a, extractedName row.fileName 2 b] ∧
    (∀ (row2 : Record) (contents2 : String → ZipContents),
      (handle_zip_row downloadDir contents2 row2).1.tempDirRemoved = true) := by
  have hw : walkEntries row.fileName [[a, b]] =
      [extractedName row.fileName 1 a, extractedName row.fileName 2 b] := by
    simp [walkEntries, batchEntries, batchEntriesFrom, ha, hb]
  refine ⟨?_, ?_, ?_, ?_⟩
  · simp [handle_zip_row, hfp, hc, hw]
  · intro r hr
    simp only [handle_zip_row, hfp, hc] at hr
    rcases List.mem_map.mp hr with ⟨fb, _, hfb⟩
    rw [← hfb]
    exact ⟨rfl, rfl⟩
  · simp [handle_zip_row, hfp, hc, hw]
  · intro row2 contents2
    cases hfp2 : row2.filePath with
    | none => simp [handle_zip_row, hfp2]
    | some zp2 =>
      cases hc2 : contents2 zp2 with
      | badZip => simp [handle_zip_row, hfp2, hc2]
      | walk batches2 => simp [handle_zip_row, hfp2, hc2]

/-- Witness for the amended C5 at a concrete two-entry archive. -/
theorem c5_flat_two_entry_archive_witness :
    (handle_zip_row "d" contentsAB rowZ).2.length = 2 ∧
    (∀ r ∈ (handle_zip_row "d" contentsAB rowZ).2, r.isExtracted = true ∧ r.isZip = false) ∧
    (handle_zip_row "d" contentsAB rowZ).1.movedFiles =
      [extractedName rowZ.fileName 1 "a.jpg", extractedName rowZ.fileName 2 "b.jpg"] ∧
    (∀ (row2 : Record) (contents2 : String → ZipContents),
      (handle_zip_row "d" contents2 row2).1.tempDirRemoved = true) :=
  c5_flat_two_entry_archive "d" contentsAB rowZ "d/Z.zip" "a.jpg" "b.jpg" rfl rfl
    (by decide) (by decide)

/-- When every attempt fails, the retry loop consumes its whole fuel,
sleeping the fixed delay after each failure, and ends in the exhaustion
error. -/
theorem retryLoop_all_fail {α : Type} (maxRetries delay : Nat) (f : Nat → Except String α)
    (hfail : ∀ n, ∃ e, f n = Except.error e) :
    ∀ (fuel calls : Nat),
      retryLoop maxRetries delay f fuel calls =
        { outcome := Except.error (FetchError.exhausted maxRetries),
          calls := calls + fuel, sleeps := List.replicate fuel delay } := by
  intro fuel
  induction fuel with
  | zero => intro calls; simp [retryLoop]
  | succ n ih =>
    intro calls
    obtain ⟨e, he⟩ := hfail calls
    simp only [retryLoop, he, ih (calls + 1), List.replicate_succ]
    refine congrArg (fun m => RetryResult.mk (Except.error (FetchError.exhausted maxRetries)) m (delay :: List.replicate n delay)) ?_
    omega

/-- `utils.retry` under total failure: exactly `max_retries` calls, the
fixed delay `max_retries` times, then the exhaustion error. -/
theorem retry_call_all_fail {α : Type} (maxRetries delay : Nat) (f : Nat → Except String α)
    (hfail : ∀ n, ∃ e, f n = Except.error e) :
    retry_call maxRetries delay f =
      { outcome := Except.error (FetchError.exhausted maxRetries),
        calls := maxRetries, sleeps := List.replicate maxRetries delay } := by
  have h := retryLoop_all_fail maxRetries delay f hfail maxRetries 0
  simpa [retry_call] using h

/-- The download loop produces one trace per record. -/
theorem download_go_len (maxRetries delay : Nat) (downloadDir : String)
    (index : List (String × String)) (total : Nat) (net : Nat → Nat → Except String Response) :
    ∀ (l : List Record) (i c : Nat),
      ((download_go maxRetries delay downloadDir index total net i c l).1).length = l.length := by
  intro l
  induction l with
  | nil => intro i c; rfl
  | cons r rest ih =>
    intro i c
    simp [download_go, ih]

/-- The `j`-th entry of the download loop's output is the step function
applied to the `j`-th record, at row index `j` and some value of the
completed counter. -/
theorem download_go_elem (maxRetries delay : Nat) (downloadDir : String)
    (index : List (String × String)) (total : Nat) (net : Nat → Nat → Except String Response) :
    ∀ (l : List Record) (i c j : Nat) (r : Record), l[j]? = some r →
      ∃ cb, ((download_go maxRetries delay downloadDir index total net i c l).1)[j]? =
        some ((download_step maxRetries delay downloadDir index total (net (i + j)) cb r).1,
              (download_step maxRetries delay downloadDir index total (net (i + j)) cb r).2.1) := by
  intro l
  induction l with
  | nil => intro i c j r h; simp at h
  | cons hd tl ih =>
    intro i c j r h
    cases j with
    | zero =>
      have h0 : hd = r := by simpa using h
      subst h0
      exact ⟨c, by simp [download_go]⟩
    | succ j =>
      have h1 : tl[j]? = some r := by simpa using h
      obtain ⟨cb, hcb⟩ := ih (i + 1)
        ((download_step maxRetries delay downloadDir index total (net i) c hd).2.2) j r h1
      refine ⟨cb, ?_⟩
      have harith : i + 1 + j = i + (j + 1) := by omega
      rw [harith] at hcb
      simpa [download_go] using hcb

/-- When every record of the list is found in the resume index, no step
performs a fetch call. -/
theorem download_go_resumed_calls (maxRetries delay : Nat) (downloadDir : String)
    (index : List (String × String)) (total : Nat) (net : Nat → Nat → Except String Response) :
    ∀ (l : List Record) (i c : Nat),
      (∀ r ∈ l, (dict_find index r.fileName).isSome = true) →
      ∀ x ∈ (download_go maxRetries delay downloadDir index total net i c l).1,
        x.2.fetchCalls = 0 := by
  intro l
  induction l with
  | nil => intro i c _ x hx; simp [download_go] at hx
  | cons hd tl ih =>
    intro i c hall x hx
    obtain ⟨fp, hfp⟩ := Option.isSome_iff_exists.mp (hall hd (List.mem_cons_self hd tl))
    simp only [download_go, List.mem_cons] at hx
    rcases hx with hx | hx
    · subst hx
      simp [download_step, hfp]
    · exact ih (i + 1) _ (fun q hq => hall q (List.mem_cons_of_mem hd hq)) x hx

/-- Claim C3: a record whose logical name is in the resume index causes
no network request; its archive flag is derived from the found file's
extension and its expansion flag from whether `extracted` occurs in the
logical name.  Consequently a re-run against a directory already holding
every expected file performs zero network requests. -/
theorem c3_resume_skips_network (maxRetries delay : Nat) (downloadDir : String)
    (listing : List String) (net : Nat → Nat → Except String Response) (records : List Record) :
    (∀ (j : Nat) (r : Record) (fp : String), records[j]? = some r →
      dict_find (get_already_downloaded_files downloadDir listing) r.fileName = some fp →
      ∃ p, (download_memories maxRetries delay downloadDir
          (get_already_downloaded_files downloadDir listing) net records)[j]? = some p ∧
        p.2.fetchCalls = 0 ∧
        p.2.outcome = RowOutcome.resumed fp ∧
        p.1.filePath = some fp ∧
        p.1.isZip = ((splitext (basename fp)).2 == ".zip") ∧
        p.1.isExtracted = containsSubstr r.fileName "extracted") ∧
    ((∀ r ∈ records,
        (dict_find (get_already_downloaded_files downloadDir listing) r.fileName).isSome = true) →
      (((download_memories maxRetries delay downloadDir
          (get_already_downloaded_files downloadDir listing) net records).map
            (fun p => p.2.fetchCalls)).sum = 0) ∧
      ((download_memories maxRetries delay downloadDir
          (get_already_downloaded_files downloadDir listing) net records).length =
        records.length)) := by
  constructor
  · intro j r fp hj hfp2
    obtain ⟨cb, hcb⟩ := download_go_elem maxRetries delay downloadDir
      (get_already_downloaded_files downloadDir listing) records.length net records 0 0 j r hj
    have hz : (0 : Nat) + j = j := Nat.zero_add j
    rw [hz] at hcb
    have hstep : download_step maxRetries delay downloadDir
        (get_already_downloaded_files downloadDir listing) records.length (net j) cb r =
        ({ r with filePath := some fp, isZip := ((splitext (basename fp)).2 == ".zip"),
                  isExtracted := containsSubstr r.fileName "extracted" },
         { outcome := RowOutcome.resumed fp, fetchCalls := 0, retrySleeps := [],
           interSleep := false, completedAfter := cb }, cb) := by
      simp [download_step, hfp2]
    rw [hstep] at hcb
    exact ⟨_, hcb, rfl, rfl, rfl, rfl, rfl⟩
  · intro h
    constructor
    · refine List.sum_eq_zero ?_
      intro y hy
      rcases List.mem_map.mp hy with ⟨x, hx, hxy⟩
      rw [← hxy]
      exact download_go_resumed_calls maxRetries delay downloadDir
        (get_already_downloaded_files downloadDir listing) records.length net records 0 0 h x hx
    · exact download_go_len maxRetries delay downloadDir
        (get_already_downloaded_files downloadDir listing) records.length net records 0 0

/-- Witness for C3: one record, already present on disk as a plain jpg. -/
theorem c3_resume_skips_network_witness :
    (∃ p, (download_memories 3 1 "d" (get_already_downloaded_files "d" jpgListing) zipNet
        [sampleRecord "100_image"])[(0 : Nat)]? = some p ∧
      p.2.fetchCalls = 0 ∧
      p.2.outcome = RowOutcome.resumed "d/100_image.jpg" ∧
      p.1.filePath = some "d/100_image.jpg" ∧
      p.1.isZip = ((splitext (basename "d/100_image.jpg")).2 == ".zip") ∧
      p.1.isExtracted = containsSubstr (sampleRecord "100_image").fileName "extracted") ∧
    ((((download_memories 3 1 "d" (get_already_downloaded_files "d" jpgListing) zipNet
        [sampleRecord "100_image"]).map (fun p => p.2.fetchCalls)).sum = 0) ∧
      ((download_memories 3 1 "d" (get_already_downloaded_files "d" jpgListing) zipNet
        [sampleRecord "100_image"]).length = ([sampleRecord "100_image"] : List Record).length)) :=
  ⟨(c3_resume_skips_network 3 1 "d" jpgListing zipNet [sampleRecord "100_image"]).1
      0 (sampleRecord "100_image") "d/100_image.jpg" rfl (by decide),
   (c3_resume_skips_network 3 1 "d" jpgListing zipNet [sampleRecord "100_image"]).2 (by decide)⟩

/-- Claim C4: when every attempt for a record fails, the fetch ends in
the exhaustion error (`FetchError`) after exactly the fixed attempt
budget with the fixed delay between attempts, the record keeps no
`file_path`, and every record of the batch is still processed. -/
theorem c4_retry_exhaustion (maxRetries delay : Nat) (downloadDir : String)
    (index : List (String × String)) (net : Nat → Nat → Except String Response)
    (pre post : List Record) (r : Record)
    (hidx : dict_find index r.fileName = none)
    (hlink : ∃ lk, r.downloadLink = some lk ∧ ¬ lk = "")
    (hfp : r.filePath = none)
    (hfail : ∀ n, ∃ e, net pre.length n = Except.error e) :
    ((download_memories maxRetries delay downloadDir index net (pre ++ r :: post)).length =
      (pre ++ r :: post).length) ∧
    (∃ b cb, (download_memories maxRetries delay downloadDir index net
        (pre ++ r :: post))[pre.length]? =
      some (r, { outcome := RowOutcome.fetchFailed (FetchError.exhausted maxRetries),
                 fetchCalls := maxRetries, retrySleeps := List.replicate maxRetries delay,
                 interSleep := b, completedAfter := cb })) ∧
    (((download_memories maxRetries delay downloadDir index net (pre ++ r :: post)).map
        (fun p => p.1.filePath))[pre.length]? = some none) := by
  have hr : (pre ++ r :: post)[pre.length]? = some r := by
    rw [List.getElem?_append_right (Nat.le_refl pre.length)]
    simp
  obtain ⟨cb, hcb⟩ := download_go_elem maxRetries delay downloadDir index
    (pre ++ r :: post).length net (pre ++ r :: post) 0 0 pre.length r hr
  have hz : (0 : Nat) + pre.length = pre.length := Nat.zero_add _
  rw [hz] at hcb
  obtain ⟨lk, hlk, hlkne⟩ := hlink
  have hgd : r.downloadLink.getD "" = lk := by rw [hlk]; rfl
  have hretry := retry_call_all_fail maxRetries delay (net pre.length) hfail
  have hstep : download_step maxRetries delay downloadDir index
      (pre ++ r :: post).length (net pre.length) cb r =
      (r, { outcome := RowOutcome.fetchFailed (FetchError.exhausted maxRetries),
            fetchCalls := maxRetries, retrySleeps := List.replicate maxRetries delay,
            interSleep := decide (cb < (pre ++ r :: post).length), completedAfter := cb }, cb) := by
    simp [download_step, hidx, hgd, hlkne, hretry]
  rw [hstep] at hcb
  have hcb2 : (download_memories maxRetries delay downloadDir index net
      (pre ++ r :: post))[pre.length]? =
      some (r, { outcome := RowOutcome.fetchFailed (FetchError.exhausted maxRetries),
                 fetchCalls := maxRetries, retrySleeps := List.replicate maxRetries delay,
                 interSleep := decide (cb < (pre ++ r :: post).length),
                 completedAfter := cb }) := hcb
  refine ⟨download_go_len maxRetries delay downloadDir index
      (pre ++ r :: post).length net (pre ++ r :: post) 0 0,
    ⟨decide (cb < (pre ++ r :: post).length), cb, hcb2⟩, ?_⟩
  rw [List.getElem?_map, hcb2]
  simp [hfp]

/-- Witness for C4: the first of two records fails every attempt, the
second is still processed. -/
theorem c4_retry_exhaustion_witness :
    ((download_memories 3 1 "d" [] netAB [recA, recB]).length =
      ([recA, recB] : List Record).length) ∧
    (∃ b cb, (download_memories 3 1 "d" [] netAB [recA, recB])[(0 : Nat)]? =
      some (recA, { outcome := RowOutcome.fetchFailed (FetchError.exhausted 3),
                    fetchCalls := 3, retrySleeps := List.replicate 3 1,
                    interSleep := b, completedAfter := cb })) ∧
    (((download_memories 3 1 "d" [] netAB [recA, recB]).map
        (fun p => p.1.filePath))[(0 : Nat)]? = some none) :=
  c4_retry_exhaustion 3 1 "d" [] netAB [] [recB] recA rfl ⟨"u0", rfl, by decide⟩ rfl
    (fun _ => ⟨"connection reset", rfl⟩)

/-- In every iteration of the download loop, the trailing sleep runs
exactly when a fetch was attempted and the completed counter is still
below the total. -/
theorem download_go_inter_sleep (maxRetries delay : Nat) (downloadDir : String)
    (index : List (String × String)) (total : Nat) (net : Nat → Nat → Except String Response) :
    ∀ (l : List Record) (i c : Nat),
      ∀ x ∈ (download_go maxRetries delay downloadDir index total net i c l).1,
        x.2.interSleep = (x.2.outcome.attempted && decide (x.2.completedAfter < total)) := by
  intro l
  induction l with
  | nil => intro i c x hx; simp [download_go] at hx
  | cons hd tl ih =>
    intro i c x hx
    simp only [download_go, List.mem_cons] at hx
    rcases hx with hx | hx
    · subst hx
      cases hdf : dict_find index hd.fileName with
      | some fp => simp [download_step, hdf, RowOutcome.attempted]
      | none =>
        by_cases hl : hd.downloadLink.getD "" = ""
        · simp [download_step, hdf, hl, RowOutcome.attempted]
        · cases ho : (retry_call maxRetries delay (net i)).outcome with
          | ok resp => simp [download_step, hdf, hl, ho, RowOutcome.attempted]
          | error e => simp [download_step, hdf, hl, ho, RowOutcome.attempted]
    · exact ih (i + 1) _ x hx

/-- Claim C6 as amended: the inter-record delay never follows a record
skipped via the resume index or for a missing link; after a record whose
fetch was attempted — successful or failed — it is applied exactly when
the completed-download count is still below the total record count.  In
particular it does run after a failed record, and after the final record
unless every record completed. -/
theorem c6_inter_record_delay (maxRetries delay : Nat) (downloadDir : String)
    (index : List (String × String)) (net : Nat → Nat → Except String Response)
    (records : List Record) (j : Nat) (t : RowTrace)
    (h : ((download_memories maxRetries delay downloadDir index net records).map
           (fun p => p.2))[j]? = some t) :
    t.interSleep = (t.outcome.attempted && decide (t.completedAfter < records.length)) := by
  have ht := List.getElem?_mem h
  rcases List.mem_map.mp ht with ⟨x, hx, hxt⟩
  rw [← hxt]
  exact download_go_inter_sleep maxRetries delay downloadDir index records.length net
    records 0 0 x hx

/-- Witness for the amended C6: a single successfully downloaded record;
the delay is skipped because the completed count equals the total. -/
theorem c6_inter_record_delay_witness :
    (((download_memories 3 1 "d" [] netOkJpg [recB]).map (fun p => p.2))[(0 : Nat)]? =
      some traceB) ∧
    traceB.interSleep = (traceB.outcome.attempted && decide (traceB.completedAfter < 1)) :=
  ⟨by decide, c6_inter_record_delay 3 1 "d" [] netOkJpg [recB] 0 traceB (by decide)⟩

/-- Counterexample to C6 as stated: with two records where the first
fails all retries and the second succeeds, the inter-record delay runs
both after the failed record and after the final record — the claim
requires it to run after neither. -/
theorem c6_counterexample :
    ((download_memories 3 1 "d" [] netAB [recA, recB]).map (fun p => p.2.outcome) =
      [RowOutcome.fetchFailed (FetchError.exhausted 3), RowOutcome.downloaded "d/2_image.jpg"]) ∧
    ((download_memories 3 1 "d" [] netAB [recA, recB]).map (fun p => p.2.interSleep) =
      [true, true]) ∧
    ¬ ((download_memories 3 1 "d" [] netAB [recA, recB]).map (fun p => p.2.interSleep) =
      [false, false]) := by
  refine ⟨by decide, by decide, by decide⟩

/-- The resume index holds a key exactly when some entry carries it. -/
theorem dict_find_isSome_iff (m : List (String × String)) (k : String) :
    (dict_find m k).isSome = true ↔ ∃ x ∈ m, x.1 = k := by
  simp [dict_find, List.find?_isSome]

/-- `dict_insert` puts the inserted key in the mapping. -/
theorem dict_insert_mem_self (m : List (String × String)) (k v : String) :
    ∃ x ∈ dict_insert m k v, x.1 = k := by
  unfold dict_insert
  by_cases hany : m.any (fun p => p.1 == k) = true
  · rw [if_pos hany]
    obtain ⟨x, hx, hxk⟩ := List.any_eq_true.mp hany
    refine ⟨(k, v), List.mem_map.mpr ⟨x, hx, ?_⟩, rfl⟩
    simp [hxk]
  · rw [if_neg hany]
    exact ⟨(k, v), List.mem_append.mpr (Or.inr (List.mem_cons_self _ _)), rfl⟩

/-- `dict_insert` keeps every key that was already in the mapping. -/
theorem dict_insert_mem_preserve (m : List (String × String)) (k v k2 : String)
    (h : ∃ x ∈ m, x.1 = k2) : ∃ y ∈ dict_insert m k v, y.1 = k2 := by
  obtain ⟨x, hx, hxk2⟩ := h
  unfold dict_insert
  by_cases hany : m.any (fun p => p.1 == k) = true
  · rw [if_pos hany]
    refine ⟨if x.1 == k then (k, v) else x, List.mem_map.mpr ⟨x, hx, rfl⟩, ?_⟩
    by_cases hxk : x.1 == k
    · have hxkeq : x.1 = k := by simpa using hxk
      rw [if_pos hxk]
      rw [← hxkeq, hxk2]
    · rw [if_neg hxk]
      exact hxk2
  · rw [if_neg hany]
    exact ⟨x, List.mem_append.mpr (Or.inl hx), hxk2⟩

/-- The resume-index fold keeps every key present in its accumulator. -/
theorem gadf_fold_preserve (downloadDir k2 : String) :
    ∀ (listing : List String) (m : List (String × String)),
      (∃ x ∈ m, x.1 = k2) →
      ∃ y ∈ listing.foldl
        (fun acc base =>
          if is_system_file base then acc
          else dict_insert acc (splitext base).1 (downloadDir ++ "/" ++ base)) m,
        y.1 = k2 := by
  intro listing
  induction listing with
  | nil => intro m h; simpa using h
  | cons b bs ih =>
    intro m h
    rw [List.foldl_cons]
    by_cases hs : is_system_file b
    · rw [if_pos hs]
      exact ih m h
    · rw [if_neg hs]
      exact ih _ (dict_insert_mem_preserve m (splitext b).1 (downloadDir ++ "/" ++ b) k2 h)

/-- Every non-system entry of the listing ends up in the resume-index
fold under its extension-stripped name. -/
theorem gadf_fold_found (downloadDir : String) :
    ∀ (listing : List String) (m : List (String × String)) (b : String),
      b ∈ listing → is_system_file b = false →
      ∃ y ∈ listing.foldl
        (fun acc base =>
          if is_system_file base then acc
          else dict_insert acc (splitext base).1 (downloadDir ++ "/" ++ base)) m,
        y.1 = (splitext b).1 := by
  intro listing
  induction listing with
  | nil => intro m b hb _; simp at hb
  | cons hd tl ih =>
    intro m b hb hs
    rcases List.mem_cons.mp hb with hb | hb
    · subst hb
      rw [List.foldl_cons, if_neg (by rw [hs]; exact Bool.false_ne_true)]
      exact gadf_fold_preserve downloadDir (splitext b).1 tl _
        (dict_insert_mem_self m (splitext b).1 (downloadDir ++ "/" ++ b))
    · rw [List.foldl_cons]
      by_cases hhd : is_system_file hd
      · rw [if_pos hhd]
        exact ih m b hb hs
      · rw [if_neg hhd]
        exact ih _ b hb hs

/-- `get_already_downloaded_files` marks every non-system listing entry
found under its extension-stripped logical name. -/
theorem gadf_marks_found (downloadDir : String) (listing : List String) (b : String)
    (hb : b ∈ listing) (hs : is_system_file b = false) :
    (dict_find (get_already_downloaded_files downloadDir listing) (splitext b).1).isSome = true :=
  (dict_find_isSome_iff _ _).mpr (gadf_fold_found downloadDir listing [] b hb hs)

/-- Claim C2 as amended: on a re-run the resume index does mark already
expanded members as found (every non-system listing entry is indexed
under its derived name), but `_handle_zips` extracts unconditionally:
every record with `is_zip = true` whose file is a valid archive is
re-extracted, its entries re-moved under the same derived names. -/
theorem c2_members_found_but_reextracted (downloadDir : String) (listing : List String)
    (b : String) (hb : b ∈ listing) (hs : is_system_file b = false)
    (contents : String → ZipContents) (rows : List Record) (row : Record)
    (hrow : row ∈ rows) (hz : row.isZip = true) (zp : String)
    (hfp : row.filePath = some zp) (batches : List (List String))
    (hc : contents zp = ZipContents.walk batches) :
    ((dict_find (get_already_downloaded_files downloadDir listing) (splitext b).1).isSome = true) ∧
    ∃ tr ∈ (handle_zips downloadDir contents rows).1,
      tr.extractionPerformed = true ∧
      tr.movedFiles = walkEntries row.fileName batches := by
  refine ⟨gadf_marks_found downloadDir listing b hb hs, ?_⟩
  have hmem : row ∈ rows.filter (fun r => r.isZip) := List.mem_filter.mpr ⟨hrow, hz⟩
  refine ⟨(handle_zip_row downloadDir contents row).1, ?_, ?_, ?_⟩
  · show (handle_zip_row downloadDir contents row).1 ∈
      ((rows.filter (fun r => r.isZip)).map (handle_zip_row downloadDir contents)).map
        (fun p => p.1)
    exact List.mem_map.mpr ⟨handle_zip_row downloadDir contents row,
      List.mem_map.mpr ⟨row, hmem, rfl⟩, rfl⟩
  · simp [handle_zip_row, hfp, hc]
  · simp [handle_zip_row, hfp, hc]

/-- Witness for the amended C2 at the concrete re-run scenario. -/
theorem c2_members_found_but_reextracted_witness :
    ((dict_find (get_already_downloaded_files "d" zipListing)
        (splitext "100_image_extracted_1.jpg").1).isSome = true) ∧
    ∃ tr ∈ (handle_zips "d" zipContentsFn [zipRowResumed]).1,
      tr.extractionPerformed = true ∧
      tr.movedFiles = walkEntries zipRowResumed.fileName [["a.jpg", "b.jpg"]] :=
  c2_members_found_but_reextracted "d" zipListing "100_image_extracted_1.jpg"
    (by decide) (by decide) zipContentsFn [zipRowResumed] zipRowResumed
    (List.mem_cons_self _ _) rfl "d/100_image.zip" rfl [["a.jpg", "b.jpg"]] rfl

/-- Counterexample to C2 as stated: with the archive and both expanded
members already on disk, the resume index marks the members found and
the fetch stage issues no request, yet the expansion stage re-extracts
the archive and re-moves both members. -/
theorem c2_counterexample :
    ((dict_find zipIndex "100_image_extracted_1").isSome = true) ∧
    ((dict_find zipIndex "100_image_extracted_2").isSome = true) ∧
    (((download_memories 3 1 "d" zipIndex zipNet [zipRecord]).map
        (fun p => p.2.fetchCalls)).sum = 0) ∧
    ((handle_zips "d" zipContentsFn
        ((download_memories 3 1 "d" zipIndex zipNet [zipRecord]).map (fun p => p.1))).1.map
          (fun t => (t.extractionPerformed, t.movedFiles)) =
      [(true, ["100_image_extracted_1.jpg", "100_image_extracted_2.jpg"])]) ∧
    ¬ ((handle_zips "d" zipContentsFn
        ((download_memories 3 1 "d" zipIndex zipNet [zipRecord]).map (fun p => p.1))).1.map
          (fun t => t.extractionPerformed) = [false]) := by
  refine ⟨by decide, by decide, by decide, by decide, by decide⟩

end SnapMem
